import Mathlib

/-! Verification of the G-code interpreter and timeline builder of
`src/main.py` (Krabikkkk/GbyPyTranslater).

Python floats are modelled as real numbers.  A tokenized input line is
modelled as its leading command word `parts[0]` together with the list of
remaining whitespace tokens `parts[1:]`, each reduced to its leading letter
and the value that `parse_val` (i.e. `float(tok[1:])`) would produce —
`none` standing for a malformed numeric suffix on which `parse_val`
returns `None`. -/

noncomputable section

namespace GbyPy

/-- Planar point, the `(x, y)` coordinate pairs of `main.py` (millimetres). -/
structure Point where
  x : ℝ
  y : ℝ

/-- One parameter token after the command word: its leading letter and the
optional numeric value `parse_val` extracts (`none` = malformed suffix,
main.py lines 43-47). -/
structure Token where
  letter : Char
  value : Option ℝ

/-- One nonempty tokenized line: `cmd = parts[0]` and `params = parts[1:]`
after uppercasing and whitespace splitting (main.py lines 50-53). -/
structure Line where
  cmd : String
  params : List Token

/-- Interpreter state threaded through `parse_and_build_path`: the local
variables `absolute`, `units`, `(cur_x, cur_y)`, `laser_on`, `current_feed`
(main.py lines 35-39). -/
structure MState where
  absolute : Bool
  units : String
  pos : Point
  laser : Bool
  feed : Option ℝ

/-- Initial interpreter state (main.py lines 35-39). -/
def initState : MState :=
  { absolute := true, units := "mm", pos := ⟨0, 0⟩, laser := false, feed := none }

/-- Constant `default_cut_feed = 1000.0` (main.py line 40). -/
def default_cut_feed : ℝ := 1000.0

/-- Constant `default_rapid_feed = 3000.0` (main.py line 41). -/
def default_rapid_feed : ℝ := 3000.0

/-- Closure `get(letter)` (main.py lines 55-62): find the first parameter
token starting with `letter`; if its numeric suffix is malformed the result
is `none` (no further tokens are examined); otherwise the parsed value,
multiplied by `25.4` when `units == "inches"`. -/
def getParam (units : String) (params : List Token) (letter : Char) : Option ℝ :=
  match params.find? (fun t => t.letter == letter) with
  | none => none
  | some t =>
    match t.value with
    | none => none
    | some v => some (if units = "inches" then v * 25.4 else v)

/-- Segment kind: the `'type'` key, `'move'` or `'pause'`. -/
inductive SegKind where
  | move
  | pause
deriving DecidableEq

/-- One emitted segment dictionary (main.py lines 88, 103, 134, 173).
Pause dictionaries carry no `'feedrate'`/`'rapid'` keys in the source; every
read of those keys goes through `seg.get('feedrate')` (default `None`) and
`seg.get('rapid', False)`, so a pause segment is modelled with
`feedrate = none` and `rapid = false`. -/
structure Segment where
  kind : SegKind
  points : List Point
  pause : ℝ
  laser : Bool
  feedrate : Option ℝ
  rapid : Bool

/-- Function `math.hypot dx dy`. -/
def hypot (dx dy : ℝ) : ℝ := Real.sqrt (dx ^ 2 + dy ^ 2)

/-- Function `math.atan2 y x`: the argument of the complex number
`x + y*i`, lying in `(-π, π]`. -/
def atan2 (y x : ℝ) : ℝ := Complex.arg ⟨x, y⟩

/-- Step count of the linear interpolator:
`steps = max(1, int(dist / 1.0))` (main.py lines 126-127). -/
def linSteps (s t : Point) : ℕ :=
  max 1 (⌊hypot (t.x - s.x) (t.y - s.y)⌋).toNat

/-- Interpolated points `pts` of a linear move (main.py lines 128-133):
`steps` points at parameters `t = i/steps`, `i = 1..steps`. -/
def linPoints (s t : Point) : List Point :=
  (List.range (linSteps s t)).map fun (i : ℕ) =>
    let tt : ℝ := ((i : ℝ) + 1) / ((linSteps s t : ℕ) : ℝ)
    ⟨s.x + (t.x - s.x) * tt, s.y + (t.y - s.y) * tt⟩

/-- Direction tie-break of the arc interpolator (main.py lines 156-164):
from the raw start and end angles, the adjusted end angle and the swept
angle `total_ang`. -/
def arcSweep (cw : Bool) (ang1 ang2 : ℝ) : ℝ × ℝ :=
  if cw then
    let a2 := if ang2 ≥ ang1 then ang2 - 2 * Real.pi else ang2
    (a2, ang1 - a2)
  else
    let a2 := if ang2 ≤ ang1 then ang2 + 2 * Real.pi else ang2
    (a2, a2 - ang1)

/-- Arc sample count `segments_count = max(8, int(abs(total_ang)/(2π)*64))`
(main.py line 165). -/
def arcCount (total : ℝ) : ℕ :=
  max 8 (⌊|total| / (2 * Real.pi) * 64⌋).toNat

/-- Sampled arc points (main.py lines 166-172): `arcCount total` points at
equal angular increments along the signed sweep. -/
def arcPoints (cw : Bool) (c : Point) (r ang1 total : ℝ) : List Point :=
  (List.range (arcCount total)).map fun (k : ℕ) =>
    let frac : ℝ := ((k : ℝ) + 1) / ((arcCount total : ℕ) : ℝ)
    let ang := if cw then ang1 - frac * total else ang1 + frac * total
    ⟨c.x + r * Real.cos ang, c.y + r * Real.sin ang⟩

/-- Target resolution shared verbatim by the move and arc branches
(main.py lines 114-119 and 142-149): an absent coordinate defaults to the
current position component, then under relative mode the (already
defaulted) value is added to the current position. -/
def resolveTarget (st : MState) (ps : List Token) : Point :=
  let tx := (getParam st.units ps 'X').getD st.pos.x
  let ty := (getParam st.units ps 'Y').getD st.pos.y
  if st.absolute then ⟨tx, ty⟩ else ⟨st.pos.x + tx, st.pos.y + ty⟩

/-- Arc center `(cx, cy) = (cur_x + ioff, cur_y + joff)` where
`ioff = get("I") or 0.0` and `joff = get("J") or 0.0` (main.py lines
143-144 and 151-152).  Python's `or 0.0` yields `0.0` both when `get`
returns `None` and when it returns the (falsy) value `0.0`, so it is
exactly `Option.getD _ 0`. -/
def arcCenter (st : MState) (ps : List Token) : Point :=
  ⟨st.pos.x + (getParam st.units ps 'I').getD 0,
   st.pos.y + (getParam st.units ps 'J').getD 0⟩

/-- Modal feed update applied to every line that reaches past the `G04`
branch (main.py lines 107-110): a present, parseable `F` parameter
overwrites `current_feed`; otherwise the state is unchanged. -/
def feedUpdate (st : MState) (ps : List Token) : MState :=
  match getParam st.units ps 'F' with
  | some f => { st with feed := some f }
  | none => st

/-- One iteration of the command dispatch loop of `parse_and_build_path`
(main.py lines 49-177): the updated state and the optionally emitted
segment.  The branch order is exactly the source's; any command word not
matched by a branch falls through to the final case after the modal feed
update. -/
def processLine (st : MState) (ln : Line) : MState × Option Segment :=
  if ln.cmd = "G20" then ({ st with units := "inches" }, none)
  else if ln.cmd = "G21" then ({ st with units := "mm" }, none)
  else if ln.cmd = "G90" then ({ st with absolute := true }, none)
  else if ln.cmd = "G91" then ({ st with absolute := false }, none)
  else if ln.cmd = "G92" then
    let st1 := match getParam st.units ln.params 'X' with
      | some gx => { st with pos := ⟨gx, st.pos.y⟩ }
      | none => st
    let st2 := match getParam st.units ln.params 'Y' with
      | some gy => { st1 with pos := ⟨st1.pos.x, gy⟩ }
      | none => st1
    (st2, none)
  else if ln.cmd = "G28" then
    ({ st with pos := ⟨0, 0⟩ },
     some ⟨.move, [st.pos, ⟨0, 0⟩], 0, st.laser, st.feed, true⟩)
  else if ln.cmd = "M03" then ({ st with laser := true }, none)
  else if ln.cmd = "M05" then ({ st with laser := false }, none)
  else if ln.cmd = "G04" then
    (st, some ⟨.pause, [], ((getParam st.units ln.params 'P').getD 0) / 1000,
               st.laser, none, false⟩)
  else
    let st1 := feedUpdate st ln.params
    if ln.cmd = "G00" ∨ ln.cmd = "G01" then
      let t := resolveTarget st1 ln.params
      let chosen := if ln.cmd = "G00" then st1.feed.getD default_rapid_feed
        else st1.feed.getD default_cut_feed
      ({ st1 with pos := t },
       some ⟨.move, st1.pos :: linPoints st1.pos t, 0, st1.laser,
             some chosen, ln.cmd == "G00"⟩)
    else if ln.cmd = "G02" ∨ ln.cmd = "G03" then
      let t := resolveTarget st1 ln.params
      let c := arcCenter st1 ln.params
      let chosen := st1.feed.getD default_cut_feed
      let r := hypot (st1.pos.x - c.x) (st1.pos.y - c.y)
      let ang1 := atan2 (st1.pos.y - c.y) (st1.pos.x - c.x)
      let ang2 := atan2 (t.y - c.y) (t.x - c.x)
      let cw := ln.cmd == "G02"
      ({ st1 with pos := t },
       some ⟨.move, st1.pos :: arcPoints cw c r ang1 (arcSweep cw ang1 ang2).2,
             0, st1.laser, some chosen, false⟩)
    else (st1, none)

/-- Main loop over all (nonempty, tokenized) lines: final state together
with the emitted segments in program order (main.py lines 34-179). -/
def runLines : MState → List Line → MState × List Segment
  | st, [] => (st, [])
  | st, ln :: rest =>
    let out := processLine st ln
    let res := runLines out.1 rest
    (res.1, match out.2 with
            | none => res.2
            | some seg => seg :: res.2)

/-- Function `parse_and_build_path` (main.py lines 26-179), on tokenized
lines: blank-line skipping happens during tokenization. -/
def parse_and_build_path (lines : List Line) : List Segment :=
  (runLines initState lines).2

/-- One playback sample appended by `build_timeline` (main.py line 237 and
line 241). -/
structure TEntry where
  x : ℝ
  y : ℝ
  draw : Bool
  dt : ℝ

/-- Constant `MIN_DT = 0.01` seconds (main.py line 220). -/
def MIN_DT : ℝ := 0.01

/-- Per-point loop of `build_timeline` over one move segment's points
(main.py lines 228-237): every point but the last gets
`dt = max(MIN_DT, dist-to-next / speed)`, the last point gets `dt = MIN_DT`. -/
def moveEntries (speed : ℝ) (draw : Bool) : List Point → List TEntry
  | [] => []
  | [p] => [⟨p.x, p.y, draw, MIN_DT⟩]
  | p :: q :: rest =>
    ⟨p.x, p.y, draw, max MIN_DT (hypot (q.x - p.x) (q.y - p.y) / speed)⟩ ::
      moveEntries speed draw (q :: rest)

/-- Processing of one segment inside `build_timeline` (main.py lines
221-241), appending to the timeline accumulated so far.  A move segment
resolves a `None` feed to `3000.0` (rapid) or `1000.0` and appends its
point entries; a pause segment appends a duplicate of the last entry with
`dt = max(MIN_DT, pause)`, or nothing when the timeline is still empty. -/
def stepSeg (tl : List TEntry) (seg : Segment) : List TEntry :=
  match seg.kind with
  | .move =>
    let feed := seg.feedrate.getD (if seg.rapid then 3000.0 else 1000.0)
    let speed := max 0.001 (feed / 60.0)
    tl ++ moveEntries speed seg.laser seg.points
  | .pause =>
    match tl.getLast? with
    | none => tl
    | some last => tl ++ [⟨last.x, last.y, last.draw, max MIN_DT seg.pause⟩]

/-- Final override `timeline[-1]['dt'] = 0.0` (main.py lines 242-243). -/
def setLastDtZero : List TEntry → List TEntry
  | [] => []
  | [e] => [{ e with dt := 0 }]
  | e :: f :: rest => e :: setLastDtZero (f :: rest)

/-- Method `DrawingWidget.build_timeline` (main.py lines 218-244). -/
def build_timeline (segs : List Segment) : List TEntry :=
  setLastDtZero (segs.foldl stepSeg [])

end GbyPy

namespace GbyPy

/-! Helper lemmas about the embedded definitions. -/

/-- The modal feed update changes no state component except `feed`, which it
overwrites exactly when `get("F")` yields a value. -/
theorem feedUpdate_spec (st : MState) (ps : List Token) :
    (feedUpdate st ps).units = st.units ∧ (feedUpdate st ps).absolute = st.absolute ∧
    (feedUpdate st ps).pos = st.pos ∧ (feedUpdate st ps).laser = st.laser ∧
    (feedUpdate st ps).feed = (getParam st.units ps 'F').elim st.feed some := by
  cases h : getParam st.units ps 'F' <;> simp [feedUpdate, h]

/-- Target resolution only reads `units`, `pos` and `absolute`, all preserved
by the modal feed update. -/
theorem resolveTarget_feedUpdate (st : MState) (ps qs : List Token) :
    resolveTarget (feedUpdate st qs) ps = resolveTarget st ps := by
  cases h : getParam st.units qs 'F' <;> simp only [feedUpdate, h] <;> rfl

/-- Arc-center computation is likewise unaffected by the modal feed update. -/
theorem arcCenter_feedUpdate (st : MState) (ps qs : List Token) :
    arcCenter (feedUpdate st qs) ps = arcCenter st ps := by
  cases h : getParam st.units qs 'F' <;> simp only [feedUpdate, h] <;> rfl

/-- Unfolding of `processLine` on a rapid or linear move command. -/
theorem processLine_move (st : MState) (ps : List Token) (cmd : String)
    (h : cmd = "G00" ∨ cmd = "G01") :
    processLine st ⟨cmd, ps⟩ =
      ({ feedUpdate st ps with pos := resolveTarget (feedUpdate st ps) ps },
       some ⟨.move,
             (feedUpdate st ps).pos ::
               linPoints (feedUpdate st ps).pos (resolveTarget (feedUpdate st ps) ps),
             0, (feedUpdate st ps).laser,
             some (if cmd = "G00" then (feedUpdate st ps).feed.getD default_rapid_feed
                   else (feedUpdate st ps).feed.getD default_cut_feed),
             cmd == "G00"⟩) := by
  rcases h with rfl | rfl <;> rfl

/-- Unfolding of `processLine` on an arc command. -/
theorem processLine_arc (st : MState) (ps : List Token) (cmd : String)
    (h : cmd = "G02" ∨ cmd = "G03") :
    processLine st ⟨cmd, ps⟩ =
      ({ feedUpdate st ps with pos := resolveTarget (feedUpdate st ps) ps },
       some ⟨.move,
             (feedUpdate st ps).pos ::
               arcPoints (cmd == "G02") (arcCenter (feedUpdate st ps) ps)
                 (hypot ((feedUpdate st ps).pos.x - (arcCenter (feedUpdate st ps) ps).x)
                        ((feedUpdate st ps).pos.y - (arcCenter (feedUpdate st ps) ps).y))
                 (atan2 ((feedUpdate st ps).pos.y - (arcCenter (feedUpdate st ps) ps).y)
                        ((feedUpdate st ps).pos.x - (arcCenter (feedUpdate st ps) ps).x))
                 (arcSweep (cmd == "G02")
                    (atan2 ((feedUpdate st ps).pos.y - (arcCenter (feedUpdate st ps) ps).y)
                           ((feedUpdate st ps).pos.x - (arcCenter (feedUpdate st ps) ps).x))
                    (atan2 ((resolveTarget (feedUpdate st ps) ps).y -
                              (arcCenter (feedUpdate st ps) ps).y)
                           ((resolveTarget (feedUpdate st ps) ps).x -
                              (arcCenter (feedUpdate st ps) ps).x))).2,
             0, (feedUpdate st ps).laser,
             some ((feedUpdate st ps).feed.getD default_cut_feed), false⟩) := by
  rcases h with rfl | rfl <;> rfl

end GbyPy

namespace GbyPy

/-! Claim theorems: parser-level claims. -/

/-- C10: a `G28` (HOME) line emits a MOVE segment whose points are exactly
the two points `[current position, (0,0)]` — the linear interpolator is not
applied — and resets the position to the origin. -/
theorem C10_home_points (st : MState) (ps : List Token) :
    (processLine st ⟨"G28", ps⟩).2 =
      some ⟨.move, [st.pos, ⟨0, 0⟩], 0, st.laser, st.feed, true⟩ ∧
    (processLine st ⟨"G28", ps⟩).1 = { st with pos := ⟨0, 0⟩ } :=
  ⟨rfl, rfl⟩

/-- C3 counterexample: the program `["G28"]` (no feed ever set) emits one
MOVE segment whose `feedrate` is `None`, refuting the claim that every
emitted MOVE segment carries a resolved, non-`None` feed. -/
theorem C3_counterexample :
    (parse_and_build_path [⟨"G28", []⟩]).map Segment.feedrate = [none] := rfl

/-- C3 amended: rapid/linear/arc move segments do carry a resolved feed
(modal feed if set, else the rapid default for `G00` and the cut default
otherwise), but the HOME segment carries the raw modal feed, which can be
`None`. -/
theorem C3_feed_resolution (st : MState) (cmd : String) (ps : List Token)
    (h : cmd = "G00" ∨ cmd = "G01" ∨ cmd = "G02" ∨ cmd = "G03") :
    (processLine st ⟨cmd, ps⟩).2.map Segment.feedrate =
      some (some ((feedUpdate st ps).feed.getD
        (if cmd = "G00" then default_rapid_feed else default_cut_feed))) ∧
    (processLine st ⟨"G28", ps⟩).2.map Segment.feedrate = some st.feed := by
  rcases h with rfl | rfl | rfl | rfl <;> exact ⟨rfl, rfl⟩

/-- C3 witness: instantiation at the `G01` command in the initial state:
no modal feed is set, so the emitted feed is the cut default `1000`. -/
theorem C3_feed_resolution_witness :
    (("G01" : String) = "G00" ∨ ("G01" : String) = "G01" ∨
     ("G01" : String) = "G02" ∨ ("G01" : String) = "G03") ∧
    (processLine initState ⟨"G01", []⟩).2.map Segment.feedrate = some (some 1000) := by
  refine ⟨Or.inr (Or.inl rfl), ?_⟩
  rw [(C3_feed_resolution initState "G01" [] (Or.inr (Or.inl rfl))).1,
      if_neg (by decide : ¬("G01" : String) = "G00")]
  norm_num [feedUpdate, getParam, initState, default_cut_feed]

/-- C2 counterexample: the unrecognized command line `"G99 F100"` changes
the `ModalState`: the modal feed is overwritten by the `F` parameter (the
modal-feed extraction at main.py lines 107-110 runs before the command is
checked against the move/arc vocabulary), refuting the claim that an
unrecognized command leaves every `ModalState` field unchanged. -/
theorem C2_counterexample :
    (processLine initState ⟨"G99", [⟨'F', some 100⟩]⟩).1.feed = some 100 ∧
    initState.feed = none ∧
    (processLine initState ⟨"G99", [⟨'F', some 100⟩]⟩).2 = none :=
  ⟨rfl, rfl, rfl⟩

/-- C2 amended: a line whose command word is outside the recognized
vocabulary emits no segment and leaves `units`, `coordinate_mode`,
`position` and `tool_engaged` unchanged, but its parseable `F` parameter
(if any) does overwrite the modal feed; with no parseable `F` the state is
fully unchanged. -/
theorem C2_unknown_command (st : MState) (cmd : String) (ps : List Token)
    (h : cmd ∉ (["G20", "G21", "G90", "G91", "G92", "G28", "M03", "M05", "G04",
                 "G00", "G01", "G02", "G03"] : List String)) :
    (processLine st ⟨cmd, ps⟩).2 = none ∧
    (processLine st ⟨cmd, ps⟩).1 = feedUpdate st ps ∧
    (processLine st ⟨cmd, ps⟩).1.units = st.units ∧
    (processLine st ⟨cmd, ps⟩).1.absolute = st.absolute ∧
    (processLine st ⟨cmd, ps⟩).1.pos = st.pos ∧
    (processLine st ⟨cmd, ps⟩).1.laser = st.laser ∧
    (getParam st.units ps 'F' = none → (processLine st ⟨cmd, ps⟩).1 = st) := by
  have h1 : ¬(cmd = "G20") := by rintro rfl; exact h (by decide)
  have h2 : ¬(cmd = "G21") := by rintro rfl; exact h (by decide)
  have h3 : ¬(cmd = "G90") := by rintro rfl; exact h (by decide)
  have h4 : ¬(cmd = "G91") := by rintro rfl; exact h (by decide)
  have h5 : ¬(cmd = "G92") := by rintro rfl; exact h (by decide)
  have h6 : ¬(cmd = "G28") := by rintro rfl; exact h (by decide)
  have h7 : ¬(cmd = "M03") := by rintro rfl; exact h (by decide)
  have h8 : ¬(cmd = "M05") := by rintro rfl; exact h (by decide)
  have h9 : ¬(cmd = "G04") := by rintro rfl; exact h (by decide)
  have h10 : ¬(cmd = "G00") := by rintro rfl; exact h (by decide)
  have h11 : ¬(cmd = "G01") := by rintro rfl; exact h (by decide)
  have h12 : ¬(cmd = "G02") := by rintro rfl; exact h (by decide)
  have h13 : ¬(cmd = "G03") := by rintro rfl; exact h (by decide)
  have hp : processLine st ⟨cmd, ps⟩ = (feedUpdate st ps, none) := by
    simp only [processLine]
    rw [if_neg h1, if_neg h2, if_neg h3, if_neg h4, if_neg h5, if_neg h6, if_neg h7,
        if_neg h8, if_neg h9, if_neg (by simp [h10, h11]), if_neg (by simp [h12, h13])]
  obtain ⟨hu, ha, hpos, hl, _⟩ := feedUpdate_spec st ps
  refine ⟨by rw [hp], by rw [hp], by rw [hp]; exact hu, by rw [hp]; exact ha,
    by rw [hp]; exact hpos, by rw [hp]; exact hl, fun hF => ?_⟩
  rw [hp]
  simp [feedUpdate, hF]

/-- C2 witness: the amended statement instantiated at the line
`"G99 F100"` in the initial state. -/
theorem C2_unknown_command_witness :
    (("G99" : String) ∉ (["G20", "G21", "G90", "G91", "G92", "G28", "M03", "M05", "G04",
                          "G00", "G01", "G02", "G03"] : List String)) ∧
    (processLine initState ⟨"G99", [⟨'F', some 100⟩]⟩).2 = none ∧
    (processLine initState ⟨"G99", [⟨'F', some 100⟩]⟩).1 =
      feedUpdate initState [⟨'F', some 100⟩] := by
  refine ⟨by decide, ?_, ?_⟩
  · exact (C2_unknown_command initState "G99" [⟨'F', some 100⟩] (by decide)).1
  · exact (C2_unknown_command initState "G99" [⟨'F', some 100⟩] (by decide)).2.1

end GbyPy

namespace GbyPy

/-- C4 counterexample: under inch mode (`G20`), the dwell line `"G04 P1000"`
yields `pause_seconds = 1000 * 25.4 / 1000 = 25.4`, not `1` — the parameter
lookup converts `P` by `25.4` like every other letter, so `pause_seconds`
is not `P/1000` regardless of the units mode. -/
theorem C4_units_counterexample :
    (parse_and_build_path [⟨"G20", []⟩, ⟨"G04", [⟨'P', some 1000⟩]⟩]).map Segment.pause
      = [25.4] ∧ (25.4 : ℝ) ≠ 1 := by
  constructor
  · show [(1000 : ℝ) * 25.4 / 1000] = [25.4]
    norm_num
  · norm_num

/-- C4 amended: a `G04` line emits a PAUSE segment whose `pause_seconds` is
the parameter-lookup value of `P` (which includes the `×25.4` inch
conversion) divided by `1000`; with `P` absent or malformed the pause is
`0`; the state is unchanged. -/
theorem C4_dwell (st : MState) (ps : List Token) :
    (∀ v : ℝ, getParam st.units ps 'P' = some v →
      (processLine st ⟨"G04", ps⟩).2.map Segment.pause = some (v / 1000)) ∧
    (getParam st.units ps 'P' = none →
      (processLine st ⟨"G04", ps⟩).2.map Segment.pause = some 0) ∧
    (processLine st ⟨"G04", ps⟩).1 = st := by
  refine ⟨fun v hv => ?_, fun hn => ?_, rfl⟩
  · show some ((getParam st.units ps 'P').getD 0 / 1000) = some (v / 1000)
    rw [hv]
    rfl
  · show some ((getParam st.units ps 'P').getD 0 / 1000) = some 0
    rw [hn]
    norm_num

/-- C4 witness: instantiation at the line `"G04 P500"` in the initial
(millimetre) state: the pause is `500/1000` seconds. -/
theorem C4_dwell_witness :
    getParam initState.units [⟨'P', some 500⟩] 'P' = some 500 ∧
    (processLine initState ⟨"G04", [⟨'P', some 500⟩]⟩).2.map Segment.pause
      = some (500 / 1000) :=
  ⟨rfl, (C4_dwell initState [⟨'P', some 500⟩]).1 500 rfl⟩

/-- C9: the parameter-lookup helper applies the inch conversion to every
parameter letter, not only coordinates: under `units == "inches"`, a
leading token for any letter is returned multiplied by `25.4`; in
particular a parseable `F` on a motion line is stored as modal feed already
multiplied by `25.4`, and the `P` of a dwell is multiplied by `25.4` before
the division by `1000`. -/
theorem C9_inch_conversion (st : MState) (v : ℝ) (ps : List Token)
    (hu : st.units = "inches") :
    (∀ L : Char, getParam st.units (⟨L, some v⟩ :: ps) L = some (v * 25.4)) ∧
    (processLine st ⟨"G01", [⟨'F', some v⟩]⟩).1.feed = some (v * 25.4) ∧
    (processLine st ⟨"G04", [⟨'P', some v⟩]⟩).2.map Segment.pause
      = some (v * 25.4 / 1000) := by
  refine ⟨fun L => ?_, ?_, ?_⟩
  · simp [getParam, hu]
  · show (feedUpdate st [⟨'F', some v⟩]).feed = some (v * 25.4)
    simp [feedUpdate, getParam, hu]
  · show some ((getParam st.units [⟨'P', some v⟩] 'P').getD 0 / 1000)
      = some (v * 25.4 / 1000)
    simp [getParam, hu]

/-- C9 witness: instantiation in an inch-mode state with `F1`: the stored
modal feed is `25.4`. -/
theorem C9_inch_conversion_witness :
    ({ initState with units := "inches" } : MState).units = "inches" ∧
    (processLine { initState with units := "inches" } ⟨"G01", [⟨'F', some 1⟩]⟩).1.feed
      = some (1 * 25.4) :=
  ⟨rfl, (C9_inch_conversion { initState with units := "inches" } 1 [] rfl).2.1⟩

/-- C1: evaluation of the code at the failing input.  Program
`["G91", "G01 X5", "G01 Y3"]`: after `G01 X5` the position is `(5, 0)` in
relative mode; the line `"G01 Y3"` carries no `X`, yet the resulting
position has `x = 10`, not `x = 5` — the absent coordinate defaults to the
current component and is then added to it again by the relative-mode
addition, so an absent coordinate doubles that axis instead of leaving it
unchanged. -/
theorem C1_relative_absent_axis :
    (runLines initState
      [⟨"G91", []⟩, ⟨"G01", [⟨'X', some 5⟩]⟩, ⟨"G01", [⟨'Y', some 3⟩]⟩]).1.pos.x = 10 ∧
    (runLines initState
      [⟨"G91", []⟩, ⟨"G01", [⟨'X', some 5⟩]⟩, ⟨"G01", [⟨'Y', some 3⟩]⟩]).1.pos.y = 3 ∧
    (10 : ℝ) ≠ 5 := by
  refine ⟨?_, ?_, by norm_num⟩
  · show (0 : ℝ) + 5 + ((0 : ℝ) + 5) = 10
    norm_num
  · show (0 : ℝ) + 0 + 3 = 3
    norm_num

/-- C5 counterexample: in the program `["G28", "G92 X100"]` the only emitted
MOVE segment ends at `(0, 0)`, but after the `G92` line the `ModalState`
position has `x = 100 ≠ 0`: `G92` mutates the position without emitting any
segment, so the position does not always equal the last point of the most
recently emitted MOVE segment. -/
theorem C5_counterexample :
    (runLines initState [⟨"G28", []⟩, ⟨"G92", [⟨'X', some 100⟩]⟩]).2.map Segment.points
      = [[⟨0, 0⟩, ⟨0, 0⟩]] ∧
    (runLines initState [⟨"G28", []⟩, ⟨"G92", [⟨'X', some 100⟩]⟩]).1.pos.x = 100 ∧
    (100 : ℝ) ≠ 0 :=
  ⟨rfl, rfl, by norm_num⟩

end GbyPy

namespace GbyPy

/-- C8: a PAUSE segment at the head of the segment sequence contributes no
timeline entry (the timeline of `s :: rest` equals that of `rest`); the
DWELL-only program `["G04 P500"]` produces exactly one PAUSE segment with
`pause_seconds = 1/2` and an empty timeline; and a PAUSE processed with a
nonempty timeline appends one duplicate of the last entry's position and
draw flag with `dt = max(MIN_DT, pause_seconds)`. -/
theorem C8_pause_drop :
    (∀ (s : Segment) (rest : List Segment), s.kind = .pause →
      build_timeline (s :: rest) = build_timeline rest) ∧
    ((parse_and_build_path [⟨"G04", [⟨'P', some 500⟩]⟩]).map Segment.pause = [1 / 2] ∧
      build_timeline (parse_and_build_path [⟨"G04", [⟨'P', some 500⟩]⟩]) = []) ∧
    (∀ (tl : List TEntry) (s : Segment) (last : TEntry), s.kind = .pause →
      tl.getLast? = some last →
      stepSeg tl s = tl ++ [⟨last.x, last.y, last.draw, max MIN_DT s.pause⟩]) := by
  refine ⟨fun s rest hk => ?_, ⟨?_, rfl⟩, fun tl s last hk hl => ?_⟩
  · have h0 : stepSeg [] s = [] := by simp [stepSeg, hk]
    simp [build_timeline, h0]
  · show [(500 : ℝ) / 1000] = [1 / 2]
    norm_num
  · simp [stepSeg, hk, hl]

/-- C8 witness: a pause segment of one second at the head of a one-segment
program is dropped. -/
theorem C8_pause_drop_witness :
    build_timeline [⟨.pause, [], 1, false, none, false⟩] = build_timeline [] :=
  C8_pause_drop.1 ⟨.pause, [], 1, false, none, false⟩ [] rfl

/-! Timeline lemmas for C7. -/

/-- Every entry produced by the per-point loop has `dt ≥ MIN_DT`. -/
theorem moveEntries_dt_ge (speed : ℝ) (draw : Bool) :
    ∀ pts : List Point, ∀ e ∈ moveEntries speed draw pts, MIN_DT ≤ e.dt
  | [] => by simp [moveEntries]
  | [p] => by
    intro e he
    simp only [moveEntries, List.mem_singleton] at he
    subst he
    exact le_refl _
  | p :: q :: rest => by
    intro e he
    simp only [moveEntries, List.mem_cons] at he
    rcases he with rfl | he
    · exact le_max_left _ _
    · exact moveEntries_dt_ge speed draw (q :: rest) e he

/-- Processing one segment preserves the lower bound `MIN_DT` on all `dt`. -/
theorem stepSeg_dt_ge (tl : List TEntry) (seg : Segment)
    (h : ∀ e ∈ tl, MIN_DT ≤ e.dt) : ∀ e ∈ stepSeg tl seg, MIN_DT ≤ e.dt := by
  intro e he
  cases hk : seg.kind
  · rw [stepSeg] at he
    rw [hk] at he
    simp only [List.mem_append] at he
    rcases he with he | he
    · exact h e he
    · exact moveEntries_dt_ge _ _ _ e he
  · rw [stepSeg] at he
    rw [hk] at he
    rcases hl : tl.getLast? with _ | last
    · rw [hl] at he
      exact h e he
    · rw [hl] at he
      simp only [List.mem_append, List.mem_singleton] at he
      rcases he with he | rfl
      · exact h e he
      · exact le_max_left _ _

/-- The whole fold preserves the lower bound `MIN_DT` on all `dt`. -/
theorem foldl_stepSeg_dt_ge :
    ∀ (segs : List Segment) (tl : List TEntry),
      (∀ e ∈ tl, MIN_DT ≤ e.dt) → ∀ e ∈ segs.foldl stepSeg tl, MIN_DT ≤ e.dt
  | [], tl, h => by simpa using h
  | s :: rest, tl, h => by
    rw [List.foldl_cons]
    exact foldl_stepSeg_dt_ge rest (stepSeg tl s) (stepSeg_dt_ge tl s h)

/-- The final-entry override returns an empty list only on an empty list. -/
theorem setLastDtZero_eq_nil_iff :
    ∀ l : List TEntry, setLastDtZero l = [] ↔ l = []
  | [] => by simp [setLastDtZero]
  | [e] => by simp [setLastDtZero]
  | e :: f :: rest => by simp [setLastDtZero]

/-- After the override, the last entry has `dt = 0`. -/
theorem setLastDtZero_getLast :
    ∀ l : List TEntry, l ≠ [] → (setLastDtZero l).getLast?.map TEntry.dt = some 0
  | [], h => absurd rfl h
  | [e], _ => rfl
  | e :: f :: rest, _ => by
    have ih := setLastDtZero_getLast (f :: rest) (by simp)
    calc (setLastDtZero (e :: f :: rest)).getLast?.map TEntry.dt
        = (e :: setLastDtZero (f :: rest)).getLast?.map TEntry.dt := rfl
      _ = (setLastDtZero (f :: rest)).getLast?.map TEntry.dt := by
          cases rest with
          | nil => rfl
          | cons g t => rw [show setLastDtZero (f :: g :: t) = f :: setLastDtZero (g :: t)
                              from rfl, List.getLast?_cons_cons]
      _ = some 0 := ih

/-- The override only lowers the very last entry: all earlier entries keep
their `dt ≥ MIN_DT` bound. -/
theorem setLastDtZero_dropLast :
    ∀ l : List TEntry, (∀ e ∈ l, MIN_DT ≤ e.dt) →
      ∀ e ∈ (setLastDtZero l).dropLast, MIN_DT ≤ e.dt
  | [], _ => by simp [setLastDtZero]
  | [e], _ => by simp [setLastDtZero]
  | e :: f :: rest, h => by
    intro x hx
    have hcons : ∃ a l2, setLastDtZero (f :: rest) = a :: l2 := by
      cases rest with
      | nil => exact ⟨_, _, rfl⟩
      | cons g t => exact ⟨_, _, rfl⟩
    obtain ⟨a, l2, hal⟩ := hcons
    rw [show setLastDtZero (e :: f :: rest) = e :: setLastDtZero (f :: rest) from rfl,
        hal, List.dropLast_cons₂, ← hal] at hx
    rcases List.mem_cons.mp hx with rfl | hx
    · exact h x (List.mem_cons_self _ _)
    · exact setLastDtZero_dropLast (f :: rest)
        (fun y hy => h y (List.mem_cons_of_mem _ hy)) x hx

end GbyPy

namespace GbyPy

/-- Concrete evaluation: the timeline of the one-line program `["G28"]` has
two entries, `dt = MIN_DT` then `dt = 0`. -/
theorem home_timeline_eval :
    build_timeline (parse_and_build_path [⟨"G28", []⟩]) =
      [⟨0, 0, false, MIN_DT⟩, ⟨0, 0, false, 0⟩] := by
  show [(⟨0, 0, false,
          max MIN_DT (hypot ((0 : ℝ) - 0) ((0 : ℝ) - 0) / max 0.001 (3000.0 / 60.0))⟩ : TEntry),
        ⟨0, 0, false, 0⟩] = [⟨0, 0, false, MIN_DT⟩, ⟨0, 0, false, 0⟩]
  have h : hypot ((0 : ℝ) - 0) ((0 : ℝ) - 0) = 0 := by
    simp [hypot]
  rw [h, zero_div]
  have h2 : max MIN_DT (0 : ℝ) = MIN_DT := by
    rw [max_eq_left]
    norm_num [MIN_DT]
  rw [h2]

/-- C7 counterexample: the program `["G28"]` yields a non-empty timeline
whose final entry has `dt = 0 < MIN_DT`, so the two halves of the claim
(final `dt` is exactly `0`, and no entry has `dt < MIN_DT`) cannot both
hold: the forced terminal `0` itself violates the `MIN_DT` bound. -/
theorem C7_counterexample :
    build_timeline (parse_and_build_path [⟨"G28", []⟩]) =
      [⟨0, 0, false, MIN_DT⟩, ⟨0, 0, false, 0⟩] ∧ (0 : ℝ) < MIN_DT :=
  ⟨home_timeline_eval, by norm_num [MIN_DT]⟩

/-- C7 amended: for any program with a non-empty built timeline, the final
entry has `dt = 0`, and every entry except the final one has
`dt ≥ MIN_DT`. -/
theorem C7_terminal_dt (lines : List Line)
    (h : build_timeline (parse_and_build_path lines) ≠ []) :
    (build_timeline (parse_and_build_path lines)).getLast?.map TEntry.dt = some 0 ∧
    ∀ e ∈ (build_timeline (parse_and_build_path lines)).dropLast, MIN_DT ≤ e.dt := by
  have hfold : (parse_and_build_path lines).foldl stepSeg [] ≠ [] := by
    intro h0
    apply h
    rw [build_timeline, h0]
    rfl
  constructor
  · rw [build_timeline]
    exact setLastDtZero_getLast _ hfold
  · rw [build_timeline]
    exact setLastDtZero_dropLast _
      (foldl_stepSeg_dt_ge (parse_and_build_path lines) [] (by simp))

/-- C7 witness: the amended statement instantiated at the program
`["G28"]`. -/
theorem C7_terminal_dt_witness :
    (build_timeline (parse_and_build_path [⟨"G28", []⟩]) ≠ []) ∧
    (build_timeline (parse_and_build_path [⟨"G28", []⟩])).getLast?.map TEntry.dt
      = some 0 := by
  have hne : build_timeline (parse_and_build_path [⟨"G28", []⟩]) ≠ [] := by
    rw [home_timeline_eval]
    simp
  exact ⟨hne, (C7_terminal_dt [⟨"G28", []⟩] hne).1⟩

end GbyPy

namespace GbyPy

/-- Evaluation of `atan2` on the positive x-axis direction: angle `0`. -/
theorem atan2_zero_one : atan2 0 1 = 0 := by
  have h : (⟨1, 0⟩ : ℂ) = 1 := by
    apply Complex.ext <;> simp
  rw [atan2, h, Complex.arg_one]

/-- Evaluation of `atan2` on the negative y-axis direction (the 270°
position): angle `-π/2`. -/
theorem atan2_negone_zero : atan2 (-1) 0 = -(Real.pi / 2) := by
  have h : (⟨0, -1⟩ : ℂ) = -Complex.I := by
    apply Complex.ext <;> simp
  rw [atan2, h, Complex.arg_neg_I]

/-- C6: the arc direction tie-break.  Concretely, for a start point at
angle 0° and an end point at angle 270° (`atan2` values `0` and `-π/2`),
the clockwise sweep is `π/2` (90°, the short way) and the counter-clockwise
sweep is `3π/2` (270°).  In general, for `atan2`-range angles: clockwise
with `end ≥ start` subtracts a full turn from the end angle and sweeps
`start − end` over the adjusted angle, else sweeps `start − end` directly;
counter-clockwise symmetrically adds a full turn when `end ≤ start`; and
the swept angle is always strictly positive. -/
theorem C6_arc_sweep (ang1 ang2 : ℝ)
    (h1 : ang1 ∈ Set.Ioc (-Real.pi) Real.pi)
    (h2 : ang2 ∈ Set.Ioc (-Real.pi) Real.pi) :
    ((arcSweep true (atan2 0 1) (atan2 (-1) 0)).2 = Real.pi / 2 ∧
     (arcSweep false (atan2 0 1) (atan2 (-1) 0)).2 = 3 * Real.pi / 2) ∧
    ((ang1 ≤ ang2 →
        (arcSweep true ang1 ang2).1 = ang2 - 2 * Real.pi ∧
        (arcSweep true ang1 ang2).2 = ang1 - (ang2 - 2 * Real.pi)) ∧
     (ang2 < ang1 → (arcSweep true ang1 ang2).2 = ang1 - ang2) ∧
     (ang2 ≤ ang1 →
        (arcSweep false ang1 ang2).1 = ang2 + 2 * Real.pi ∧
        (arcSweep false ang1 ang2).2 = (ang2 + 2 * Real.pi) - ang1) ∧
     (ang1 < ang2 → (arcSweep false ang1 ang2).2 = ang2 - ang1)) ∧
    (0 < (arcSweep true ang1 ang2).2 ∧ 0 < (arcSweep false ang1 ang2).2) := by
  have hπ := Real.pi_pos
  obtain ⟨h1l, h1r⟩ := h1
  obtain ⟨h2l, h2r⟩ := h2
  refine ⟨⟨?_, ?_⟩, ⟨?_, ?_, ?_, ?_⟩, ?_, ?_⟩
  · rw [atan2_zero_one, atan2_negone_zero]
    simp only [arcSweep, if_true]
    rw [if_neg (by simp; linarith)]
    ring
  · rw [atan2_zero_one, atan2_negone_zero]
    simp only [arcSweep, Bool.false_eq_true, if_false]
    rw [if_pos (by linarith)]
    ring
  · intro hle
    simp only [arcSweep, if_true]
    rw [if_pos hle]
    exact ⟨rfl, rfl⟩
  · intro hlt
    simp only [arcSweep, if_true]
    rw [if_neg (not_le.mpr hlt)]
  · intro hle
    simp only [arcSweep, Bool.false_eq_true, if_false]
    rw [if_pos hle]
    exact ⟨rfl, rfl⟩
  · intro hlt
    simp only [arcSweep, Bool.false_eq_true, if_false]
    rw [if_neg (not_le.mpr hlt)]
  · simp only [arcSweep, if_true]
    split_ifs with hc
    · simp only [ge_iff_le] at hc
      linarith
    · simp only [ge_iff_le, not_le] at hc
      linarith
  · simp only [arcSweep, Bool.false_eq_true, if_false]
    split_ifs with hc
    · linarith
    · simp only [not_le] at hc
      linarith

/-- C6 witness: the tie-break instantiated at equal start and end angles
`0`: a full clockwise turn, strictly positive. -/
theorem C6_arc_sweep_witness :
    ((0 : ℝ) ∈ Set.Ioc (-Real.pi) Real.pi) ∧
    0 < (arcSweep true 0 0).2 := by
  have h : (0 : ℝ) ∈ Set.Ioc (-Real.pi) Real.pi :=
    ⟨by linarith [Real.pi_pos], by linarith [Real.pi_pos]⟩
  exact ⟨h, (C6_arc_sweep 0 0 h h).2.2.1⟩

end GbyPy

namespace GbyPy

/-! Geometry lemmas for C5. -/

/-- The last element of a mapped range. -/
theorem getLast?_range_map {α : Type} (n : ℕ) (hn : n ≠ 0) (f : ℕ → α) :
    ((List.range n).map f).getLast? = some (f (n - 1)) := by
  obtain ⟨m, rfl⟩ := Nat.exists_eq_succ_of_ne_zero hn
  rw [List.range_succ, List.map_append]
  simp

/-- Prepending preserves a known last element of a nonempty list. -/
theorem getLast?_cons_of_getLast? {α : Type} (a x : α) (l : List α)
    (h : l.getLast? = some x) : (a :: l).getLast? = some x := by
  cases l with
  | nil => simp at h
  | cons b t =>
    rw [List.getLast?_cons_cons]
    exact h

/-- The linear interpolator's last sample is exactly the target point. -/
theorem linPoints_getLast (s t : Point) : (linPoints s t).getLast? = some t := by
  have h1 : 1 ≤ linSteps s t := le_max_left 1 _
  have hn : linSteps s t ≠ 0 := by omega
  have hnn : ((linSteps s t : ℕ) : ℝ) ≠ 0 := Nat.cast_ne_zero.mpr hn
  rw [linPoints, getLast?_range_map _ hn]
  have hc : (((linSteps s t - 1 : ℕ) : ℝ) + 1) / ((linSteps s t : ℕ) : ℝ) = 1 := by
    rw [Nat.cast_sub h1]
    field_simp
  show some (⟨s.x + (t.x - s.x) * ((((linSteps s t - 1 : ℕ) : ℝ) + 1) / ((linSteps s t : ℕ) : ℝ)),
              s.y + (t.y - s.y) * ((((linSteps s t - 1 : ℕ) : ℝ) + 1) / ((linSteps s t : ℕ) : ℝ))⟩
      : Point) = some t
  rw [hc]
  have hx : s.x + (t.x - s.x) * 1 = t.x := by ring
  have hy : s.y + (t.y - s.y) * 1 = t.y := by ring
  rw [hx, hy]

/-- The arc interpolator's last sample sits at the fully swept angle. -/
theorem arcPoints_getLast (cw : Bool) (c : Point) (r ang1 total : ℝ) :
    (arcPoints cw c r ang1 total).getLast? =
      some ⟨c.x + r * Real.cos (if cw = true then ang1 - total else ang1 + total),
            c.y + r * Real.sin (if cw = true then ang1 - total else ang1 + total)⟩ := by
  have h8 : 8 ≤ arcCount total := le_max_left _ _
  have hn : arcCount total ≠ 0 := by omega
  have hnn : ((arcCount total : ℕ) : ℝ) ≠ 0 := Nat.cast_ne_zero.mpr hn
  rw [arcPoints, getLast?_range_map _ hn]
  have hc : (((arcCount total - 1 : ℕ) : ℝ) + 1) / ((arcCount total : ℕ) : ℝ) = 1 := by
    rw [Nat.cast_sub (by omega : 1 ≤ arcCount total)]
    field_simp
  show some (⟨c.x + r * Real.cos (if cw = true
        then ang1 - (((arcCount total - 1 : ℕ) : ℝ) + 1) / ((arcCount total : ℕ) : ℝ) * total
        else ang1 + (((arcCount total - 1 : ℕ) : ℝ) + 1) / ((arcCount total : ℕ) : ℝ) * total),
      c.y + r * Real.sin (if cw = true
        then ang1 - (((arcCount total - 1 : ℕ) : ℝ) + 1) / ((arcCount total : ℕ) : ℝ) * total
        else ang1 + (((arcCount total - 1 : ℕ) : ℝ) + 1) / ((arcCount total : ℕ) : ℝ) * total)⟩
      : Point) = _
  rw [hc, one_mul]

/-- The angle reached after sweeping `total_ang` from the start angle is
the adjusted end angle of the tie-break. -/
theorem arcSweep_endAngle (cw : Bool) (ang1 ang2 : ℝ) :
    (if cw = true then ang1 - (arcSweep cw ang1 ang2).2
     else ang1 + (arcSweep cw ang1 ang2).2) = (arcSweep cw ang1 ang2).1 := by
  cases cw <;> simp [arcSweep]

/-- The adjusted end angle differs from the raw end angle by a full turn at
most, so its cosine and sine are those of the raw end angle. -/
theorem arcSweep_cos_sin (cw : Bool) (ang1 ang2 : ℝ) :
    Real.cos (arcSweep cw ang1 ang2).1 = Real.cos ang2 ∧
    Real.sin (arcSweep cw ang1 ang2).1 = Real.sin ang2 := by
  cases cw <;> simp only [arcSweep, Bool.false_eq_true, if_false, if_true] <;> split_ifs <;>
    constructor <;>
    simp [Real.cos_sub_two_pi, Real.sin_sub_two_pi, Real.cos_add_two_pi, Real.sin_add_two_pi]

/-- `math.hypot` is the complex absolute value of the matching complex
number. -/
theorem hypot_eq_complexAbs (dx dy : ℝ) : Complex.abs ⟨dx, dy⟩ = hypot dx dy := by
  rw [hypot, Complex.abs_apply, Complex.normSq_mk]
  ring_nf

/-- A vector of nonzero length is a nonzero complex number. -/
theorem hypot_ne_zero_mk (dx dy : ℝ) (h : hypot dx dy ≠ 0) : (⟨dx, dy⟩ : ℂ) ≠ 0 := by
  intro h0
  apply h
  have hx : dx = 0 := by simpa using congrArg Complex.re h0
  have hy : dy = 0 := by simpa using congrArg Complex.im h0
  rw [hx, hy, hypot]
  norm_num

/-- If the commanded target is on the circle through the start point around
the computed center (and not at the center), the arc interpolator's last
sample is exactly the target. -/
theorem arc_last_point (cw : Bool) (p t c : Point)
    (hr : hypot (p.x - c.x) (p.y - c.y) = hypot (t.x - c.x) (t.y - c.y))
    (hne : hypot (t.x - c.x) (t.y - c.y) ≠ 0) :
    (arcPoints cw c (hypot (p.x - c.x) (p.y - c.y))
        (atan2 (p.y - c.y) (p.x - c.x))
        (arcSweep cw (atan2 (p.y - c.y) (p.x - c.x))
          (atan2 (t.y - c.y) (t.x - c.x))).2).getLast? = some t := by
  rw [arcPoints_getLast, arcSweep_endAngle]
  obtain ⟨hc, hs⟩ :=
    arcSweep_cos_sin cw (atan2 (p.y - c.y) (p.x - c.x)) (atan2 (t.y - c.y) (t.x - c.x))
  rw [hc, hs, hr]
  have hz : (⟨t.x - c.x, t.y - c.y⟩ : ℂ) ≠ 0 := hypot_ne_zero_mk _ _ hne
  have hcos : Real.cos (atan2 (t.y - c.y) (t.x - c.x))
      = (t.x - c.x) / hypot (t.x - c.x) (t.y - c.y) := by
    rw [atan2, Complex.cos_arg hz, hypot_eq_complexAbs]
  have hsin : Real.sin (atan2 (t.y - c.y) (t.x - c.x))
      = (t.y - c.y) / hypot (t.x - c.x) (t.y - c.y) := by
    rw [atan2, Complex.sin_arg, hypot_eq_complexAbs]
  rw [hcos, hsin]
  have hmx : hypot (t.x - c.x) (t.y - c.y) * ((t.x - c.x) / hypot (t.x - c.x) (t.y - c.y))
      = t.x - c.x := by
    field_simp
  have hmy : hypot (t.x - c.x) (t.y - c.y) * ((t.y - c.y) / hypot (t.x - c.x) (t.y - c.y))
      = t.y - c.y := by
    field_simp
  rw [hmx, hmy]
  have hfx : c.x + (t.x - c.x) = t.x := by ring
  have hfy : c.y + (t.y - c.y) = t.y := by ring
  rw [hfx, hfy]

end GbyPy

namespace GbyPy

/-- C5 amended: immediately after a `G00`, `G01` or `G28` line, the
`ModalState` position equals the last point of the just-emitted MOVE
segment; the same holds after a `G02`/`G03` line provided the commanded
target lies on the circle around the computed center through the start
point (equal nonzero radii).  (`G92` mutates the position without emitting
a segment, and an off-circle arc target breaks the equality, so the
original prefix-wide invariant fails; see the counterexample.) -/
theorem C5_position_invariant (st : MState) (cmd : String) (ps : List Token)
    (h : cmd = "G00" ∨ cmd = "G01" ∨ cmd = "G28" ∨
      ((cmd = "G02" ∨ cmd = "G03") ∧
        hypot (st.pos.x - (arcCenter st ps).x) (st.pos.y - (arcCenter st ps).y) =
          hypot ((resolveTarget st ps).x - (arcCenter st ps).x)
                ((resolveTarget st ps).y - (arcCenter st ps).y) ∧
        hypot ((resolveTarget st ps).x - (arcCenter st ps).x)
              ((resolveTarget st ps).y - (arcCenter st ps).y) ≠ 0)) :
    (processLine st ⟨cmd, ps⟩).2.map (fun s => s.points.getLast?) =
      some (some (processLine st ⟨cmd, ps⟩).1.pos) := by
  rcases h with rfl | rfl | rfl | ⟨hcmd, hr, hne⟩
  · rw [processLine_move st ps "G00" (Or.inl rfl)]
    dsimp only
    simp only [Option.map_some']
    rw [getLast?_cons_of_getLast? _ _ _ (linPoints_getLast _ _)]
  · rw [processLine_move st ps "G01" (Or.inr rfl)]
    dsimp only
    simp only [Option.map_some']
    rw [getLast?_cons_of_getLast? _ _ _ (linPoints_getLast _ _)]
  · rfl
  · rw [processLine_arc st ps cmd hcmd]
    dsimp only
    simp only [Option.map_some']
    rw [resolveTarget_feedUpdate, arcCenter_feedUpdate,
        (feedUpdate_spec st ps).2.2.1]
    rw [getLast?_cons_of_getLast? _ _ _
      (arc_last_point (cmd == "G02") st.pos (resolveTarget st ps) (arcCenter st ps) hr hne)]

/-- C5 witness: instantiation at a `G28` line from the initial state. -/
theorem C5_position_invariant_witness :
    (processLine initState ⟨"G28", []⟩).2.map (fun s => s.points.getLast?) =
      some (some (processLine initState ⟨"G28", []⟩).1.pos) :=
  C5_position_invariant initState "G28" [] (Or.inr (Or.inr (Or.inl rfl)))

end GbyPy
